import Mathlib

/-
  Verification of the pg_arman backup engine (backup.c) against its
  natural-language specification.

  The definitions below are a shallow embedding of backup.c.  External
  effects (stat(2), gettimeofday(2), the PostgreSQL connection, the
  archive directory) are passed in explicitly: file-system answers as
  functions from paths, the wall clock as a stream of second readings,
  the archive-status polls as a stream of booleans.  Fatal `elog(ERROR)`
  exits are represented as error results.  Loops whose termination
  depends on the outside world (the same-second wait, the archive wait)
  take explicit fuel; running out of fuel models blocking forever
  (respectively is unreachable where the C loop is bounded).
-/

namespace PgArman

/- ===================== Data model ===================== -/

/-- Backup modes of pg_arman (pg_arman.h): invalid, full, differential page. -/
inductive BackupMode
  | INVALID
  | FULL
  | DIFF_PAGE
  deriving DecidableEq

/-- Backup statuses of a catalog record. -/
inductive BackupStatus
  | INVALID
  | RUNNING
  | DONE
  | ERROR
  | DELETED
  | CORRUPT
  deriving DecidableEq

/-- The fields of a `pgBackup` catalog record that the backup engine reads
or writes.  `end_time = 0` models the C `(time_t) 0`, i.e. "unset". -/
structure pgBackup where
  backup_mode : BackupMode
  status : BackupStatus
  tli : Nat
  start_lsn : Nat
  end_time : Nat
  deriving DecidableEq

/-- The fields of a `pgFile` entry that the embedded code consults.
`pagemap` is the per-segment set of dirty block numbers (datapagemap). -/
structure pgFile where
  path : String
  mtime : Nat
  is_datafile : Bool
  pagemap : List Nat
  deriving DecidableEq

/-- The errno values distinguished by the embedded code: ENOENT versus
everything else (represented by EACCES and OTHER). -/
inductive Errno
  | ENOENT
  | EACCES
  | OTHER
  deriving DecidableEq

/-- What st_mode of a stat buffer classifies to: S_ISDIR, S_ISREG, or other. -/
inductive FileKind
  | dir
  | reg
  | other
  deriving DecidableEq

/-- RELSEG_SIZE: blocks per relation segment (PostgreSQL build constant,
1GB segments of 8kB blocks). -/
def RELSEG_SIZE : Nat := 131072

/-- backup.c line 24: wait 10 sec until WAL archive complete. -/
def TIMEOUT_ARCHIVE : Nat := 10

/-- Sentinel write_size for skipped files. -/
def BYTES_INVALID : Int := -1

/- ===================== Error messages (backup.c) ===================== -/

def standbyMsg : String := "Backup cannot run on a standby."

def noFullBackupMsg : String :=
  "Valid full backup not found for differential backup. Either create a full backup or validate existing one."

def noLabelMsg : String := "backup_label does not exist in PGDATA."

def interruptedWaitMsg : String := "interrupted during waiting for WAL archiving"

def timeoutMsg : String := "switched WAL could not be archived in 10 seconds"

def rewindMsg : String := "current time may be rewound. Please retry with full backup mode."

def interruptedBackupMsg : String := "interrupted during backup"

/-- backup.c line 697 prints the path and strerror; the apostrophe-free
stem stands for the whole formatted message here. -/
def statFailMsg : String := "cannot stat backup file"

/- ===================== Catalog lookup ===================== -/

/-- Modelled from the spec: `catalog_get_last_data_backup` lives in
catalog.c, which is not among the sources at hand.  Spec: "last_data_backup
(list, timeline) returns the most recent DONE FULL record on the given
timeline, or nothing", and the catalog list it receives is sorted by start
time descending, so the first match of a front-to-back scan is the most
recent one. -/
def catalog_get_last_data_backup (list : List pgBackup) (tli : Nat) : Option pgBackup :=
  list.find? (fun b =>
    b.status == BackupStatus.DONE && b.backup_mode == BackupMode.FULL && b.tli == tli)

/- ===================== wait_for_archive (backup.c lines 497-511) ===================== -/

/-- The archive-status polling loop of `wait_for_archive`.  `ready t`
says whether the `.ready` marker file still exists at the t-th poll
(`fileExists(ready_path)`); `intr` is the `interrupted` flag.  The loop
body sleeps one second, checks the interrupt flag, increments the try
counter and errors out past TIMEOUT_ARCHIVE.  The C loop performs at most
TIMEOUT_ARCHIVE + 1 iterations, so fuel TIMEOUT_ARCHIVE + 1 makes the
fuel-exhaustion branch unreachable (it repeats the timeout error). -/
def wait_for_archive_loop (ready : Nat → Bool) (intr : Bool) : Nat → Nat → Except String Nat
  | try_count, fuel =>
    if ready try_count then
      if intr then .error interruptedWaitMsg
      else if TIMEOUT_ARCHIVE < try_count + 1 then .error timeoutMsg
      else
        match fuel with
        | 0 => .error timeoutMsg
        | f + 1 => wait_for_archive_loop ready intr (try_count + 1) f
    else .ok try_count

/-- `wait_for_archive` reduced to its waiting part: the SQL round trips
(pg_switch_xlog / pg_stop_backup, txid_current) only fill record fields
that the waiting loop does not consult.  Returns the try count at which
the `.ready` marker was observed gone. -/
def wait_for_archive (ready : Nat → Bool) (intr : Bool) : Except String Nat :=
  wait_for_archive_loop ready intr 0 (TIMEOUT_ARCHIVE + 1)

/- ===================== fileExists (backup.c lines 585-596) ===================== -/

/-- `fileExists`.  `statRes` is the outcome of `stat(path, &buf)`:
`.ok kind` on success with the buffer's file kind, `.error e` on failure
with errno `e`.  On failure the C code leaves `buf` uninitialized, yet
when `errno != ENOENT` it still evaluates `S_ISREG(buf.st_mode)`; the
`residual` argument is the (unspecified) content that `buf.st_mode`
happens to hold in that case. -/
def fileExists (statRes : Except Errno FileKind) (residual : FileKind) : Bool :=
  match statRes with
  | .error Errno.ENOENT => false
  | .error _ => residual == FileKind.reg
  | .ok kind => kind == FileKind.reg

/- ===================== backup_files (backup.c lines 636-792) ===================== -/

/-- External file-system and copy behavior visible to `backup_files`:
the fresh `stat` of each listed path, and the success of
`backup_data_file` (which receives the page-scan lower bound `lsn`)
respectively `copy_file`. -/
structure FS where
  statOf : String → Except Errno FileKind
  dataCopyOk : String → Option Nat → Bool
  plainCopyOk : String → Bool

/-- What `backup_files` did with one listed file. The `copied` and
`copyFailed` payload is the wall-clock second observed when the copy
began. -/
inductive FileAction
  | skippedMissing
  | madeDir
  | skippedUnmodified
  | copied (tv : Nat)
  | copyFailed (tv : Nat)
  | unexpectedType
  deriving DecidableEq

/-- The write_size assignment performed by `backup_files` itself for an
action (`none` = left to the copy routine / untouched). -/
def actionWriteSize : FileAction → Option Int
  | .skippedMissing => some BYTES_INVALID
  | .skippedUnmodified => some BYTES_INVALID
  | .copyFailed _ => some BYTES_INVALID
  | _ => none

structure FileOutcome where
  path : String
  mtime : Nat
  action : FileAction
  deriving DecidableEq

/-- Result of `backup_files`: a fatal `elog(ERROR)` exit, blocking forever
in the same-second wait (the clock never advanced), or completion with
the per-file outcomes in processing order. -/
inductive BFResult
  | fatal (msg : String)
  | blocked
  | done (acts : List FileOutcome)
  deriving DecidableEq

/-- The skip test of backup.c lines 716-757 for the `prefix = NULL` call
used by `do_backup_database`: `parray_bsearch` over the previous backup's
path-sorted file list, then comparison of recorded mtimes; embedded as a
lookup by path equality. -/
def prevSkip (prev : Option (List pgFile)) (f : pgFile) : Bool :=
  match prev with
  | none => false
  | some ps =>
    match ps.find? (fun p => p.path == f.path) with
    | none => false
    | some p => p.mtime == f.mtime

/-- The same-second wait of backup.c lines 765-774: re-read the clock,
then sleep and re-read while the observed second is still ≤ mtime.
`clock k` is the k-th `gettimeofday` reading (seconds); returns the index
and value of the first reading strictly past `mtime`, or `none` when the
fuel runs out (the clock never advanced: the C loop blocks forever). -/
def wait_next_second (clock : Nat → Nat) (mtime : Nat) : Nat → Nat → Option (Nat × Nat)
  | _, 0 => none
  | k, fuel + 1 =>
    let tv := clock k
    if tv ≤ mtime then wait_next_second clock mtime (k + 1) fuel
    else some (k, tv)

/-- Outcome of the loop body of `backup_files` for a single file:
fatal exit, blocked in the same-second wait, or continue with the
recorded outcome and the updated clock state (current seconds value,
next fresh reading index). -/
inductive StepOut
  | fatal (msg : String)
  | blocked
  | cont (o : FileOutcome) (tv k : Nat)
  deriving DecidableEq

/-- The copy call of backup.c line 777-779:
`file->is_datafile ? backup_data_file(from_root, to_root, file, lsn)
: copy_file(from_root, to_root, file)`. -/
def copy_result (fs : FS) (lsn : Option Nat) (f : pgFile) : Bool :=
  if f.is_datafile then fs.dataCopyOk f.path lsn else fs.plainCopyOk f.path

/-- One iteration of the `backup_files` loop (backup.c lines 653-791):
clock-rewind check, interrupt check, fresh stat (ENOENT ⇒ skip, other
failure ⇒ fatal), directory creation, skip of files unmodified since the
previous backup, same-second wait, then `backup_data_file`/`copy_file`
with a skip when the copy routine reports failure. -/
def file_step (fs : FS) (clock : Nat → Nat) (intr : Bool) (prev : Option (List pgFile))
    (lsn : Option Nat) (fuel : Nat) (tv k : Nat) (f : pgFile) : StepOut :=
  if tv < f.mtime then .fatal rewindMsg
  else if intr then .fatal interruptedBackupMsg
  else
    match fs.statOf f.path with
    | .error e =>
      if e = Errno.ENOENT then .cont ⟨f.path, f.mtime, .skippedMissing⟩ tv k
      else .fatal statFailMsg
    | .ok FileKind.dir => .cont ⟨f.path, f.mtime, .madeDir⟩ tv k
    | .ok FileKind.reg =>
      if prevSkip prev f then .cont ⟨f.path, f.mtime, .skippedUnmodified⟩ tv k
      else if tv = f.mtime then
        match wait_next_second clock f.mtime k fuel with
        | none => .blocked
        | some (k', tv') =>
          if copy_result fs lsn f then
            .cont ⟨f.path, f.mtime, .copied tv'⟩ tv' (k' + 1)
          else
            .cont ⟨f.path, f.mtime, .copyFailed tv'⟩ tv' (k' + 1)
      else
        if copy_result fs lsn f then
          .cont ⟨f.path, f.mtime, .copied tv⟩ tv k
        else
          .cont ⟨f.path, f.mtime, .copyFailed tv⟩ tv k
    | .ok FileKind.other => .cont ⟨f.path, f.mtime, .unexpectedType⟩ tv k

/-- The for-loop of `backup_files` over the (sorted) file list, threading
the current clock reading. -/
def backup_files_loop (fs : FS) (clock : Nat → Nat) (intr : Bool)
    (prev : Option (List pgFile)) (lsn : Option Nat) (fuel : Nat) :
    Nat → Nat → List pgFile → List FileOutcome → BFResult
  | _, _, [], acc => .done acc
  | tv, k, f :: rest, acc =>
    match file_step fs clock intr prev lsn fuel tv k f with
    | .fatal m => .fatal m
    | .blocked => .blocked
    | .cont o tv' k' => backup_files_loop fs clock intr prev lsn fuel tv' k' rest (acc ++ [o])

/-- Stable insertion by path, embedding `parray_qsort(files,
pgFileComparePath)` (sort of the listed paths ascending). -/
def insertByPath (f : pgFile) : List pgFile → List pgFile
  | [] => [f]
  | g :: rest =>
    if f.path ≤ g.path then f :: g :: rest else g :: insertByPath f rest

def sortFiles : List pgFile → List pgFile
  | [] => []
  | f :: rest => insertByPath f (sortFiles rest)

/-- `backup_files(from_root, to_root, files, prev_files, lsn, NULL)`:
sort by path, take the initial `gettimeofday` reading, then run the copy
loop. -/
def backup_files (fs : FS) (clock : Nat → Nat) (intr : Bool)
    (prev : Option (List pgFile)) (lsn : Option Nat) (fuel : Nat)
    (files : List pgFile) : BFResult :=
  backup_files_loop fs clock intr prev lsn fuel (clock 0) 1 (sortFiles files) []

/- ===================== do_backup_database (backup.c lines 59-242) ===================== -/

/-- The orchestration steps of `do_backup_database` that the temporal
claims talk about, in the order the routine performs them. -/
inductive Event
  | pgStartBackup
  | dirScan
  | addFiles
  | walSwitch
  | extractPageMap
  | backupFilesCopy
  | pgStopBackup
  | writeFileList
  deriving DecidableEq

/-- Result of `do_backup_database`: fatal exit (with the events already
performed), blocked in the copier, or success.  `lsnUsed` is the
page-scan lower bound handed to `extractPageMap` and `backup_files`
(`NULL` i.e. `none` for a full backup). -/
inductive DbResult
  | fatal (trace : List Event) (msg : String)
  | blocked (trace : List Event)
  | ok (trace : List Event) (lsnUsed : Option Nat)
  deriving DecidableEq

/-- The external world of one `do_backup_database` run. -/
structure DbEnv where
  backup_mode : BackupMode
  is_standby : Bool
  tli : Nat
  backup_list : List pgBackup
  backup_label_exists : Bool
  files : List pgFile
  prev_files : List pgFile
  fs : FS
  clock : Nat → Nat
  interrupted : Bool
  switch_ready : Nat → Bool
  stop_ready : Nat → Bool
  fuel : Nat

/-- The tail of `do_backup_database` from the `backup_files` call on
(backup.c lines 212-218): copy the files, notify end of backup
(pg_stop_backup, itself a wait_for_archive), then write the file list. -/
def finish_backup (env : DbEnv) (tr : List Event) (lsn : Option Nat)
    (prevf : Option (List pgFile)) : DbResult :=
  let tr' := tr ++ [Event.backupFilesCopy]
  match backup_files env.fs env.clock env.interrupted prevf lsn env.fuel env.files with
  | .fatal m => .fatal tr' m
  | .blocked => .blocked tr'
  | .done _ =>
    match wait_for_archive env.stop_ready env.interrupted with
    | .error m => .fatal (tr' ++ [Event.pgStopBackup]) m
    | .ok _ => .ok (tr' ++ [Event.pgStopBackup, Event.writeFileList]) lsn

/-- `do_backup_database`.  In order (backup.c lines 59-242): refuse a
standby; in DIFF_PAGE mode require a DONE FULL parent on the current
timeline; pg_start_backup; abort (after a pg_stop_backup) when no
backup_label appeared in PGDATA; list directories for mkdirs.sh; in
DIFF_PAGE mode re-fetch the parent, read its file list and take its
start_lsn as the page-scan lower bound; list and tag the data-directory
files (add_files); in DIFF_PAGE mode force a WAL switch, wait for the
segment to be archived and build the page map (extractPageMap); then
copy, stop the backup and write the file list (`finish_backup`). -/
def do_backup_database (env : DbEnv) : DbResult :=
  if env.is_standby then .fatal [] standbyMsg
  else
    let parent := catalog_get_last_data_backup env.backup_list env.tli
    if env.backup_mode = BackupMode.DIFF_PAGE ∧ parent = none then
      .fatal [] noFullBackupMsg
    else
      let tr1 := [Event.pgStartBackup]
      if env.backup_label_exists = false then
        match wait_for_archive env.stop_ready env.interrupted with
        | .error m => .fatal (tr1 ++ [Event.pgStopBackup]) m
        | .ok _ => .fatal (tr1 ++ [Event.pgStopBackup]) noLabelMsg
      else
        let tr2 := tr1 ++ [Event.dirScan]
        let lsn := if env.backup_mode = BackupMode.DIFF_PAGE then
                     parent.map pgBackup.start_lsn
                   else none
        let prevf := if env.backup_mode = BackupMode.DIFF_PAGE then
                       some env.prev_files
                     else none
        let tr3 := tr2 ++ [Event.addFiles]
        if env.backup_mode = BackupMode.DIFF_PAGE then
          match wait_for_archive env.switch_ready env.interrupted with
          | .error m => .fatal (tr3 ++ [Event.walSwitch]) m
          | .ok _ => finish_backup env (tr3 ++ [Event.walSwitch, Event.extractPageMap]) lsn prevf
        else
          finish_backup env tr3 lsn prevf

/-- The event sequence of a successful DIFF_PAGE run. -/
def diffTrace : List Event :=
  [.pgStartBackup, .dirScan, .addFiles, .walSwitch, .extractPageMap,
   .backupFilesCopy, .pgStopBackup, .writeFileList]

/-- The event sequence of a successful FULL run. -/
def fullTrace : List Event :=
  [.pgStartBackup, .dirScan, .addFiles, .backupFilesCopy, .pgStopBackup, .writeFileList]

/- ===================== do_backup / backup_cleanup (backup.c lines 245-360, 603-631) ===================== -/

/-- `backup_cleanup(fatal, userdata)` restricted to its effect on the
current record.  `in_backup` is the guard flag; `label_exists` says
whether a backup_label file is present in PGDATA (in which case the
handler first issues pg_stop_backup); `stop_ok` says whether that
pg_stop_backup call completed (its wait_for_archive can itself raise a
fatal error, in which case the handler exits before touching the
record).  Only a record still RUNNING with unset end_time is moved to
ERROR. -/
def backup_cleanup (in_backup label_exists stop_ok : Bool) (now : Nat)
    (r : pgBackup) : pgBackup :=
  if in_backup = false then r
  else if label_exists ∧ stop_ok = false then r
  else if r.status = BackupStatus.RUNNING ∧ r.end_time = 0 then
    { r with status := BackupStatus.ERROR, end_time := now }
  else r

/-- The fatal-exit sites of `do_backup` that matter for the status
life-cycle, in program order. -/
inductive FailSite
  | beforeInit
  | createDir
  | getList
  | inDatabase
  | afterDone
  | noFail
  deriving DecidableEq

/-- On-disk status evolution of `do_backup` (non-dry-run), keyed by where
a fatal exit happens, mirroring backup.c lines 245-360: the record is
initialized RUNNING with unset end_time and written by pgBackupWriteIni
(line 306); `catalog_get_backup_list` may fail fatally at line 313,
before `pgut_atexit_push(backup_cleanup)` at line 316, so no handler
runs; a fatal exit inside `do_backup_database` runs `backup_cleanup`;
on success the handler is popped and the record written DONE with its
end time.  Returns the record on disk after the process exits
(`none` = no record was ever written). -/
def do_backup_disk (site : FailSite) (label_exists stop_ok : Bool)
    (t_fail t_done : Nat) (r0 : pgBackup) : Option pgBackup :=
  let init := { r0 with status := BackupStatus.RUNNING, end_time := 0 }
  match site with
  | .beforeInit => none
  | .createDir => none
  | .getList => some init
  | .inDatabase => some (backup_cleanup true label_exists stop_ok t_fail init)
  | .afterDone => some { init with status := BackupStatus.DONE, end_time := t_done }
  | .noFail => some { init with status := BackupStatus.DONE, end_time := t_done }

/- ===================== process_block_change (backup.c lines 873-935) ===================== -/

/-- RelFileNode: (tablespace oid, database oid, relation oid). -/
structure RelFileNode where
  spcNode : Nat
  dbNode : Nat
  relNode : Nat
  deriving DecidableEq

/-- Relation fork numbers. -/
inductive ForkNumber
  | main
  | fsm
  | vm
  | init
  deriving DecidableEq

/-- `datasegpath(rnode, forknum, segno)`: the relation path with the
`.segno` suffix appended exactly when `segno > 0`.  `relpath` stands for
PostgreSQL's `relpathperm`, external to this repository. -/
def datasegpath (relpath : RelFileNode → ForkNumber → String)
    (rnode : RelFileNode) (forknum : ForkNumber) (segno : Nat) : String :=
  if segno > 0 then relpath rnode forknum ++ "." ++ toString segno
  else relpath rnode forknum

/-- `datapagemap_add`: set the block's bit in the page map (idempotent
set insertion). -/
def datapagemap_add (pm : List Nat) (b : Nat) : List Nat :=
  if b ∈ pm then pm else pm ++ [b]

/-- The lookup-and-update of `process_block_change`: scan the backup file
list front to back for the first entry whose path equals the computed
path and add the in-segment block number to its page map; change nothing
when no entry matches. -/
def addToFirstMatch : List pgFile → String → Nat → List pgFile
  | [], _, _ => []
  | f :: rest, path, b =>
    if f.path == path then { f with pagemap := datapagemap_add f.pagemap b } :: rest
    else f :: addToFirstMatch rest path b

/-- `process_block_change(forknum, rnode, blkno)`: split the block number
into segment number and in-segment block number, build
`pgdata ++ "/" ++ datasegpath(...)`, and record the in-segment block in
the page map of the matching file-list entry, if any. -/
def process_block_change (relpath : RelFileNode → ForkNumber → String)
    (pgdata : String) (backup_files_list : List pgFile)
    (forknum : ForkNumber) (rnode : RelFileNode) (blkno : Nat) : List pgFile :=
  let segno := blkno / RELSEG_SIZE
  let blkno_inseg := blkno % RELSEG_SIZE
  let path := pgdata ++ "/" ++ datasegpath relpath rnode forknum segno
  addToFirstMatch backup_files_list path blkno_inseg

/- ===================== Derived predicates and sample worlds ===================== -/

/-- Every copy this outcome reports began at a wall-clock second strictly
past the file's mtime. -/
def copyAboveMtime (o : FileOutcome) : Bool :=
  match o.action with
  | .copied tv => decide (o.mtime < tv)
  | .copyFailed tv => decide (o.mtime < tv)
  | _ => true

/-- A file system on which every path stats as a regular file and every
copy succeeds. -/
def fsAllReg : FS := ⟨fun _ => .ok FileKind.reg, fun _ _ => true, fun _ => true⟩

/-- A DONE FULL backup record on timeline 1 with start_lsn 42. -/
def parentFull : pgBackup := ⟨BackupMode.FULL, BackupStatus.DONE, 1, 42, 99⟩

/-- A benign world for a FULL backup with nothing to copy. -/
def envFullOk : DbEnv := {
  backup_mode := BackupMode.FULL
  is_standby := false
  tli := 1
  backup_list := []
  backup_label_exists := true
  files := []
  prev_files := []
  fs := fsAllReg
  clock := fun _ => 0
  interrupted := false
  switch_ready := fun _ => false
  stop_ready := fun _ => false
  fuel := 3 }

/-- The same world, but the server never produced a backup_label. -/
def envNoLabel : DbEnv := { envFullOk with backup_label_exists := false }

/-- A benign world for a DIFF_PAGE backup: a DONE FULL parent on the
current timeline exists. -/
def envDiffOk : DbEnv := { envFullOk with
  backup_mode := BackupMode.DIFF_PAGE
  backup_list := [parentFull] }

/-- A DIFF_PAGE world with an empty catalog: no valid full parent. -/
def envDiffNoParent : DbEnv := { envFullOk with backup_mode := BackupMode.DIFF_PAGE }

/-- A sample relation-segment file entry with mtime 5. -/
def fileReg5 : pgFile := ⟨"base/1/16384", 5, true, []⟩

/- ===================== Helper lemmas ===================== -/

theorem wait_loop_timeout (ready : Nat → Bool)
    (hall : ∀ t, t ≤ TIMEOUT_ARCHIVE → ready t = true) :
    ∀ fuel t0, t0 ≤ TIMEOUT_ARCHIVE →
      wait_for_archive_loop ready false t0 fuel = .error timeoutMsg := by
  intro fuel
  induction fuel with
  | zero =>
    intro t0 h1
    simp [wait_for_archive_loop, hall t0 h1]
  | succ f ih =>
    intro t0 h1
    by_cases hto : TIMEOUT_ARCHIVE < t0 + 1
    · simp [wait_for_archive_loop, hall t0 h1, hto]
    · have hnext : t0 + 1 ≤ TIMEOUT_ARCHIVE := by omega
      simp [wait_for_archive_loop, hall t0 h1, hto]
      exact ih (t0 + 1) hnext

theorem wait_loop_finds (ready : Nat → Bool) :
    ∀ fuel t0 tstar, t0 ≤ tstar → tstar ≤ TIMEOUT_ARCHIVE → tstar ≤ t0 + fuel →
      ready tstar = false → (∀ s, t0 ≤ s → s < tstar → ready s = true) →
      wait_for_archive_loop ready false t0 fuel = .ok tstar := by
  intro fuel
  induction fuel with
  | zero =>
    intro t0 tstar h1 h2 h3 h4 h5
    have he : t0 = tstar := by omega
    subst he
    simp [wait_for_archive_loop, h4]
  | succ f ih =>
    intro t0 tstar h1 h2 h3 h4 h5
    by_cases he : t0 = tstar
    · subst he
      simp [wait_for_archive_loop, h4]
    · have hlt : t0 < tstar := by omega
      have hr : ready t0 = true := h5 t0 (le_refl _) hlt
      have hno : ¬ TIMEOUT_ARCHIVE < t0 + 1 := by
        simp only [TIMEOUT_ARCHIVE] at h2 ⊢; omega
      simp [wait_for_archive_loop, hr, hno]
      exact ih (t0 + 1) tstar (by omega) h2 (by omega) h4
        (fun s hs1 hs2 => h5 s (by omega) hs2)

theorem wait_next_second_gt (clock : Nat → Nat) (m : Nat) :
    ∀ fuel k k' tv', wait_next_second clock m k fuel = some (k', tv') →
      m < tv' ∧ tv' = clock k' := by
  intro fuel
  induction fuel with
  | zero => intro k k' tv' h; simp [wait_next_second] at h
  | succ f ih =>
    intro k k' tv' h
    simp only [wait_next_second] at h
    by_cases hc : clock k ≤ m
    · rw [if_pos hc] at h
      exact ih _ _ _ h
    · rw [if_neg hc] at h
      simp only [Option.some.injEq, Prod.mk.injEq] at h
      obtain ⟨hk, htv⟩ := h
      subst hk
      subst htv
      exact ⟨by omega, rfl⟩

theorem file_step_cont_copyAbove (fs : FS) (clock : Nat → Nat) (intr : Bool)
    (prev : Option (List pgFile)) (lsn : Option Nat) (fuel tv k : Nat) (f : pgFile)
    (o : FileOutcome) (tv' k' : Nat)
    (h : file_step fs clock intr prev lsn fuel tv k f = .cont o tv' k') :
    copyAboveMtime o = true := by
  unfold file_step at h
  by_cases h1 : tv < f.mtime
  · simp only [if_pos h1] at h
    cases h
  · simp only [if_neg h1] at h
    by_cases h2 : intr = true
    · simp only [if_pos h2] at h
      cases h
    · simp only [if_neg h2] at h
      cases hstat : fs.statOf f.path with
      | error e =>
        simp only [hstat] at h
        by_cases h3 : e = Errno.ENOENT
        · simp only [if_pos h3] at h
          cases h
          rfl
        · simp only [if_neg h3] at h
          cases h
      | ok kind =>
        simp only [hstat] at h
        cases kind with
        | dir => cases h; rfl
        | other => cases h; rfl
        | reg =>
          by_cases h4 : prevSkip prev f = true
          · simp only [if_pos h4] at h
            cases h
            rfl
          · simp only [if_neg h4] at h
            by_cases h5 : tv = f.mtime
            · simp only [if_pos h5] at h
              cases hwait : wait_next_second clock f.mtime k fuel with
              | none =>
                simp only [hwait] at h
                cases h
              | some p =>
                obtain ⟨kk, tvv⟩ := p
                simp only [hwait] at h
                have hgt := (wait_next_second_gt clock f.mtime fuel k kk tvv hwait).1
                by_cases hcopy : copy_result fs lsn f = true
                · simp only [if_pos hcopy] at h
                  cases h
                  simp [copyAboveMtime, hgt]
                · simp only [if_neg hcopy] at h
                  cases h
                  simp [copyAboveMtime, hgt]
            · simp only [if_neg h5] at h
              have hgt : f.mtime < tv := by omega
              by_cases hcopy : copy_result fs lsn f = true
              · simp only [if_pos hcopy] at h
                cases h
                simp [copyAboveMtime, hgt]
              · simp only [if_neg hcopy] at h
                cases h
                simp [copyAboveMtime, hgt]

theorem backup_files_loop_acc_mem (fs : FS) (clock : Nat → Nat) (intr : Bool)
    (prev : Option (List pgFile)) (lsn : Option Nat) (fuel : Nat) :
    ∀ files tv k acc acts,
      backup_files_loop fs clock intr prev lsn fuel tv k files acc = .done acts →
      ∀ o, o ∈ acc → o ∈ acts := by
  intro files
  induction files with
  | nil =>
    intro tv k acc acts h o ho
    simp only [backup_files_loop, BFResult.done.injEq] at h
    rwa [← h]
  | cons f rest ih =>
    intro tv k acc acts h o ho
    simp only [backup_files_loop] at h
    cases hstep : file_step fs clock intr prev lsn fuel tv k f with
    | fatal m => simp only [hstep] at h; cases h
    | blocked => simp only [hstep] at h; cases h
    | cont o1 tv1 k1 =>
      simp only [hstep] at h
      exact ih tv1 k1 (acc ++ [o1]) acts h o (by simp [ho])

theorem backup_files_loop_copyAbove (fs : FS) (clock : Nat → Nat) (intr : Bool)
    (prev : Option (List pgFile)) (lsn : Option Nat) (fuel : Nat) :
    ∀ files tv k acc acts,
      backup_files_loop fs clock intr prev lsn fuel tv k files acc = .done acts →
      (∀ o ∈ acc, copyAboveMtime o = true) →
      ∀ o ∈ acts, copyAboveMtime o = true := by
  intro files
  induction files with
  | nil =>
    intro tv k acc acts h hacc o ho
    simp only [backup_files_loop, BFResult.done.injEq] at h
    exact hacc o (h ▸ ho)
  | cons f rest ih =>
    intro tv k acc acts h hacc o ho
    simp only [backup_files_loop] at h
    cases hstep : file_step fs clock intr prev lsn fuel tv k f with
    | fatal m => simp only [hstep] at h; cases h
    | blocked => simp only [hstep] at h; cases h
    | cont o1 tv1 k1 =>
      simp only [hstep] at h
      refine ih tv1 k1 (acc ++ [o1]) acts h ?_ o ho
      intro o2 ho2
      rcases List.mem_append.mp ho2 with hmem | hmem
      · exact hacc o2 hmem
      · have he : o2 = o1 := by simpa using hmem
        subst he
        exact file_step_cont_copyAbove fs clock intr prev lsn fuel tv k f _ _ _ hstep

theorem backup_files_loop_prevskip (fs : FS) (clock : Nat → Nat) (intr : Bool)
    (prev : Option (List pgFile)) (lsn : Option Nat) (fuel : Nat) :
    ∀ files tv k acc acts,
      backup_files_loop fs clock intr prev lsn fuel tv k files acc = .done acts →
      ∀ f ∈ files, fs.statOf f.path = .ok FileKind.reg → prevSkip prev f = true →
        (⟨f.path, f.mtime, FileAction.skippedUnmodified⟩ : FileOutcome) ∈ acts := by
  intro files
  induction files with
  | nil => intro tv k acc acts h f hf; exact absurd hf (by simp)
  | cons g rest ih =>
    intro tv k acc acts h f hf hstat hskip
    simp only [backup_files_loop] at h
    cases hstep : file_step fs clock intr prev lsn fuel tv k g with
    | fatal m => simp only [hstep] at h; cases h
    | blocked => simp only [hstep] at h; cases h
    | cont o1 tv1 k1 =>
      simp only [hstep] at h
      rcases List.mem_cons.mp hf with hfg | hfrest
      · subst hfg
        unfold file_step at hstep
        by_cases h1 : tv < f.mtime
        · simp only [if_pos h1] at hstep
          cases hstep
        · simp only [if_neg h1] at hstep
          by_cases h2 : intr = true
          · simp only [if_pos h2] at hstep
            cases hstep
          · simp only [if_neg h2] at hstep
            simp only [hstat] at hstep
            simp only [if_pos hskip] at hstep
            cases hstep
            exact backup_files_loop_acc_mem fs clock intr prev lsn fuel rest _ _
              _ acts h _ (by simp)
      · exact ih tv1 k1 (acc ++ [o1]) acts h f hfrest hstat hskip

theorem do_backup_database_ok_shape (env : DbEnv) (tr : List Event) (l : Option Nat)
    (h : do_backup_database env = .ok tr l) :
    (env.backup_mode = BackupMode.DIFF_PAGE ∧ tr = diffTrace ∧
      ∃ p, catalog_get_last_data_backup env.backup_list env.tli = some p ∧
        l = some p.start_lsn)
    ∨ (env.backup_mode ≠ BackupMode.DIFF_PAGE ∧ tr = fullTrace ∧ l = none) := by
  by_cases hs : env.is_standby = true
  · simp [do_backup_database, hs] at h
  · by_cases hd : env.backup_mode = BackupMode.DIFF_PAGE
    · cases hp : catalog_get_last_data_backup env.backup_list env.tli with
      | none => simp [do_backup_database, hs, hd, hp] at h
      | some p =>
        by_cases hl : env.backup_label_exists = false
        · cases hw : wait_for_archive env.stop_ready env.interrupted with
          | error m => simp [do_backup_database, hs, hd, hp, hl, hw] at h
          | ok n => simp [do_backup_database, hs, hd, hp, hl, hw] at h
        · cases hw : wait_for_archive env.switch_ready env.interrupted with
          | error m => simp [do_backup_database, hs, hd, hp, hl, hw] at h
          | ok n =>
            cases hb : backup_files env.fs env.clock env.interrupted
                (some env.prev_files) (some p.start_lsn) env.fuel env.files with
            | fatal m =>
              simp [do_backup_database, finish_backup, hs, hd, hp, hl, hw, hb] at h
            | blocked =>
              simp [do_backup_database, finish_backup, hs, hd, hp, hl, hw, hb] at h
            | done acts =>
              cases hw2 : wait_for_archive env.stop_ready env.interrupted with
              | error m =>
                simp [do_backup_database, finish_backup, hs, hd, hp, hl, hw, hb, hw2] at h
              | ok n2 =>
                simp [do_backup_database, finish_backup, hs, hd, hp, hl, hw, hb, hw2] at h
                obtain ⟨htr, hlsn⟩ := h
                refine Or.inl ⟨hd, ?_, p, rfl, ?_⟩
                · rw [← htr]; rfl
                · rw [← hlsn]
    · by_cases hl : env.backup_label_exists = false
      · cases hw : wait_for_archive env.stop_ready env.interrupted with
        | error m => simp [do_backup_database, hs, hd, hl, hw] at h
        | ok n => simp [do_backup_database, hs, hd, hl, hw] at h
      · cases hb : backup_files env.fs env.clock env.interrupted none none env.fuel env.files with
        | fatal m =>
          simp [do_backup_database, finish_backup, hs, hd, hl, hb] at h
        | blocked =>
          simp [do_backup_database, finish_backup, hs, hd, hl, hb] at h
        | done acts =>
          cases hw2 : wait_for_archive env.stop_ready env.interrupted with
          | error m =>
            simp [do_backup_database, finish_backup, hs, hd, hl, hb, hw2] at h
          | ok n2 =>
            simp [do_backup_database, finish_backup, hs, hd, hl, hb, hw2] at h
            obtain ⟨htr, hlsn⟩ := h
            refine Or.inr ⟨hd, ?_, ?_⟩
            · rw [← htr]; rfl
            · rw [← hlsn]

theorem mem_insertByPath (f g : pgFile) :
    ∀ l : List pgFile, g ∈ insertByPath f l ↔ g = f ∨ g ∈ l := by
  intro l
  induction l with
  | nil => simp [insertByPath]
  | cons x rest ih =>
    simp only [insertByPath]
    split
    · simp
    · simp only [List.mem_cons, ih]
      tauto

theorem mem_sortFiles (f : pgFile) :
    ∀ files : List pgFile, f ∈ sortFiles files ↔ f ∈ files := by
  intro files
  induction files with
  | nil => simp [sortFiles]
  | cons x rest ih =>
    simp only [sortFiles, mem_insertByPath, List.mem_cons, ih]

/- ===================== Claim theorems ===================== -/

theorem addToFirstMatch_no_match :
    ∀ (l : List pgFile) (path : String) (b : Nat),
      (∀ f ∈ l, f.path ≠ path) → addToFirstMatch l path b = l := by
  intro l path b
  induction l with
  | nil => intro _; rfl
  | cons f rest ih =>
    intro hnone
    have hf : (f.path == path) ≠ true := by simpa using hnone f (by simp)
    simp only [addToFirstMatch, if_neg hf]
    rw [ih (fun g hg => hnone g (by simp [hg]))]

theorem addToFirstMatch_first :
    ∀ (pre : List pgFile) (e : pgFile) (post : List pgFile) (path : String) (b : Nat),
      (∀ f ∈ pre, f.path ≠ path) → e.path = path →
      addToFirstMatch (pre ++ e :: post) path b =
        pre ++ { e with pagemap := datapagemap_add e.pagemap b } :: post := by
  intro pre
  induction pre with
  | nil =>
    intro e post path b _ he
    simp only [List.nil_append, addToFirstMatch]
    rw [if_pos (by simpa using he)]
  | cons f rest ih =>
    intro e post path b hnone he
    have hf : (f.path == path) ≠ true := by simpa using hnone f (by simp)
    simp only [List.cons_append, addToFirstMatch, if_neg hf]
    exact congrArg (f :: ·) (ih e post path b (fun g hg => hnone g (by simp [hg])) he)

/-- C1: `process_block_change(forknum, rnode, blkno)` computes segment
number `blkno / RELSEG_SIZE` and in-segment block `blkno % RELSEG_SIZE`,
looks up the entry whose path is the data-directory root, a slash, and
the relation path with suffix `.segno` exactly when segno > 0; when such
an entry exists (the first one, earlier entries not matching) the
in-segment block is added to its page map, and when none exists the file
list is unchanged (the block change is silently dropped). -/
theorem C1_process_block_change
    (relpath : RelFileNode → ForkNumber → String) (pgdata : String)
    (files : List pgFile) (forknum : ForkNumber) (rnode : RelFileNode) (blkno : Nat) :
    ((∀ f ∈ files,
        f.path ≠ pgdata ++ "/" ++ (if blkno / RELSEG_SIZE > 0
          then relpath rnode forknum ++ "." ++ toString (blkno / RELSEG_SIZE)
          else relpath rnode forknum)) →
      process_block_change relpath pgdata files forknum rnode blkno = files)
    ∧ (∀ pre e post, files = pre ++ e :: post →
        (∀ f ∈ pre,
          f.path ≠ pgdata ++ "/" ++ (if blkno / RELSEG_SIZE > 0
            then relpath rnode forknum ++ "." ++ toString (blkno / RELSEG_SIZE)
            else relpath rnode forknum)) →
        e.path = pgdata ++ "/" ++ (if blkno / RELSEG_SIZE > 0
          then relpath rnode forknum ++ "." ++ toString (blkno / RELSEG_SIZE)
          else relpath rnode forknum) →
        process_block_change relpath pgdata files forknum rnode blkno =
          pre ++ { e with pagemap := datapagemap_add e.pagemap (blkno % RELSEG_SIZE) } :: post) := by
  constructor
  · intro hnone
    simp only [process_block_change]
    exact addToFirstMatch_no_match files _ _
      (fun f hf => by simpa [datasegpath] using hnone f hf)
  · intro pre e post hsplit hnone he
    subst hsplit
    simp only [process_block_change]
    exact addToFirstMatch_first pre e post _ _
      (fun f hf => by simpa [datasegpath] using hnone f hf)
      (by simpa [datasegpath] using he)

/-- Witness for C1 at a concrete input: block 7 of segment 0 lands in
the page map of the matching file-list entry. -/
theorem C1_process_block_change_witness :
    process_block_change (fun _ _ => "base/1/16384") "pgdata"
      [⟨"pgdata/base/1/16384", 0, true, []⟩] ForkNumber.main ⟨1, 1, 16384⟩ 7 =
      [⟨"pgdata/base/1/16384", 0, true, [7]⟩] := by
  have h := (C1_process_block_change (fun _ _ => "base/1/16384") "pgdata"
      [⟨"pgdata/base/1/16384", 0, true, []⟩] ForkNumber.main ⟨1, 1, 16384⟩ 7).2
      [] ⟨"pgdata/base/1/16384", 0, true, []⟩ [] rfl (by simp) (by rfl)
  simpa [datapagemap_add] using h

/-- C2: in DIFF_PAGE mode with no DONE FULL parent on the current
timeline (`catalog_get_last_data_backup` returns nothing),
`do_backup_database` raises the fatal error whose message starts with
"Valid full backup not found for differential backup" and performs no
file copying (the trace is empty, in particular no copy event); when a
parent exists and the run succeeds, the page-scan lower bound handed to
`extractPageMap`/`backup_files` is the parent's start LSN. -/
theorem C2_diff_requires_full_parent (env : DbEnv)
    (hs : env.is_standby = false) (hd : env.backup_mode = BackupMode.DIFF_PAGE) :
    (catalog_get_last_data_backup env.backup_list env.tli = none →
      do_backup_database env = .fatal [] noFullBackupMsg
      ∧ noFullBackupMsg = "Valid full backup not found for differential backup"
          ++ ". Either create a full backup or validate existing one."
      ∧ Event.backupFilesCopy ∉ ([] : List Event))
    ∧ (∀ p tr l, catalog_get_last_data_backup env.backup_list env.tli = some p →
        do_backup_database env = .ok tr l → l = some p.start_lsn) := by
  constructor
  · intro hp
    refine ⟨?_, by rfl, by simp⟩
    simp [do_backup_database, hs, hd, hp]
  · intro p tr l hp hok
    rcases do_backup_database_ok_shape env tr l hok with ⟨-, -, q, hq, hl⟩ | ⟨hnd, -, -⟩
    · rw [hp] at hq
      cases hq
      exact hl
    · exact absurd hd hnd

/-- Witness for C2: a DIFF_PAGE run over an empty catalog fails with the
expected message before any event. -/
theorem C2_diff_requires_full_parent_witness :
    do_backup_database envDiffNoParent = .fatal [] noFullBackupMsg
    ∧ noFullBackupMsg = "Valid full backup not found for differential backup"
        ++ ". Either create a full backup or validate existing one."
    ∧ Event.backupFilesCopy ∉ ([] : List Event) :=
  (C2_diff_requires_full_parent envDiffNoParent rfl rfl).1 rfl

/-- C3 counterexample: the claim says that after any exit no record
remains in RUNNING status and that backup_cleanup always clears a
RUNNING record.  But (a) a fatal exit at `catalog_get_backup_list`
(backup.c line 313) happens after the initial manifest was written with
status RUNNING and before `pgut_atexit_push(backup_cleanup)` (line 316),
so the on-disk record stays RUNNING; and (b) when a backup_label is
present and the handler's own pg_stop_backup call raises a fatal error
(interrupt or archive timeout inside wait_for_archive), backup_cleanup
exits before the status update and leaves the record RUNNING. -/
theorem C3_running_after_exit_counterexample :
    (do_backup_disk FailSite.getList true true 5 9
        ⟨BackupMode.FULL, BackupStatus.INVALID, 1, 7, 0⟩).map pgBackup.status
      = some BackupStatus.RUNNING
    ∧ backup_cleanup true true false 7 ⟨BackupMode.FULL, BackupStatus.RUNNING, 1, 7, 0⟩
      = ⟨BackupMode.FULL, BackupStatus.RUNNING, 1, 7, 0⟩ := ⟨rfl, rfl⟩

/-- C3 (amended): the record is initialized RUNNING; on success it moves
to DONE; a fatal exit inside do_backup_database (handler registered,
handler stop-backup not failing) moves it to ERROR via backup_cleanup;
backup_cleanup changes only a record still RUNNING with unset end_time
(never DONE to ERROR nor ERROR to DONE) and is idempotent; and after any
exit other than the two counterexample windows (fatal before handler
registration; stop-backup failure inside the handler) no record remains
RUNNING. -/
theorem C3_status_lifecycle :
    (∀ le so tf td r0, do_backup_disk FailSite.noFail le so tf td r0 =
        some { r0 with status := BackupStatus.DONE, end_time := td })
    ∧ (∀ le tf td r0, do_backup_disk FailSite.inDatabase le true tf td r0 =
        some { r0 with status := BackupStatus.ERROR, end_time := tf })
    ∧ (∀ ib le so n r, r.status ≠ BackupStatus.RUNNING ∨ r.end_time ≠ 0 →
        backup_cleanup ib le so n r = r)
    ∧ (∀ ib le so n r, backup_cleanup ib le so n r ≠ r →
        r.status = BackupStatus.RUNNING ∧ r.end_time = 0)
    ∧ (∀ ib le so n1 n2 r,
        backup_cleanup ib le so n2 (backup_cleanup ib le so n1 r) =
          backup_cleanup ib le so n1 r)
    ∧ (∀ site le so tf td r0 r, site ≠ FailSite.getList →
        (site = FailSite.inDatabase → le = true → so = true) →
        do_backup_disk site le so tf td r0 = some r →
        r.status ≠ BackupStatus.RUNNING) := by
  refine ⟨fun le so tf td r0 => rfl, ?_, ?_, ?_, ?_, ?_⟩
  · intro le tf td r0
    simp [do_backup_disk, backup_cleanup]
  · intro ib le so n r hor
    by_cases hib : ib = false
    · simp [backup_cleanup, hib]
    · by_cases hls : le = true ∧ so = false
      · simp [backup_cleanup, hib, hls]
      · rcases hor with h | h
        · simp [backup_cleanup, hib, hls, h]
        · simp [backup_cleanup, hib, hls, h]
  · intro ib le so n r hne
    by_cases hr : r.status = BackupStatus.RUNNING ∧ r.end_time = 0
    · exact hr
    · exfalso
      apply hne
      by_cases hib : ib = false
      · simp [backup_cleanup, hib]
      · by_cases hls : le = true ∧ so = false
        · simp [backup_cleanup, hib, hls]
        · simp [backup_cleanup, hib, hls, hr]
  · intro ib le so n1 n2 r
    by_cases hib : ib = false
    · simp [backup_cleanup, hib]
    · by_cases hls : le = true ∧ so = false
      · simp [backup_cleanup, hib, hls]
      · by_cases hr : r.status = BackupStatus.RUNNING ∧ r.end_time = 0
        · simp [backup_cleanup, hib, hls, hr]
        · simp [backup_cleanup, hib, hls, hr]
  · intro site le so tf td r0 r hng h2 hdisk
    cases site with
    | beforeInit => simp [do_backup_disk] at hdisk
    | createDir => simp [do_backup_disk] at hdisk
    | getList => exact absurd rfl hng
    | afterDone =>
      simp only [do_backup_disk, Option.some.injEq] at hdisk
      subst hdisk
      simp
    | noFail =>
      simp only [do_backup_disk, Option.some.injEq] at hdisk
      subst hdisk
      simp
    | inDatabase =>
      simp only [do_backup_disk, Option.some.injEq] at hdisk
      subst hdisk
      by_cases hle : le = true
      · have hso : so = true := h2 rfl hle
        subst hso
        simp [backup_cleanup, hle]
      · simp [backup_cleanup, hle]

/-- Witness for C3 at a concrete input: a fatal exit inside the database
phase, with the handler registered and its stop-backup succeeding, moves
the record to ERROR with the cleanup time as end time. -/
theorem C3_status_lifecycle_witness :
    do_backup_disk FailSite.inDatabase true true 4 9
        ⟨BackupMode.FULL, BackupStatus.INVALID, 1, 7, 0⟩ =
      some ⟨BackupMode.FULL, BackupStatus.ERROR, 1, 7, 4⟩ := by
  have h := C3_status_lifecycle.2.1 true 4 9 ⟨BackupMode.FULL, BackupStatus.INVALID, 1, 7, 0⟩
  simpa using h

/-- C4 counterexample: in the execution where the server produced no
backup_label, `do_backup_database` issues pg_stop_backup without any
backup_files run, so the claim that in every execution the stop call
happens only after backup_files has completed copying is false. -/
theorem C4_stop_without_copy_counterexample :
    do_backup_database envNoLabel =
      .fatal [Event.pgStartBackup, Event.pgStopBackup] noLabelMsg
    ∧ Event.pgStopBackup ∈ [Event.pgStartBackup, Event.pgStopBackup]
    ∧ Event.backupFilesCopy ∉ [Event.pgStartBackup, Event.pgStopBackup] :=
  ⟨rfl, by decide, by decide⟩

/-- C4 (amended): in every successful execution of do_backup_database,
pg_start_backup precedes both directory scans, backup_files precedes
pg_stop_backup, pg_stop_backup precedes the file-list write, and in
DIFF_PAGE mode the WAL switch and archive wait come after
pg_start_backup and before extractPageMap; on the abort path where
backup_label is missing, pg_stop_backup is issued with no copy having
run. -/
theorem C4_ordering :
    (∀ env tr l, do_backup_database env = .ok tr l →
      tr.indexOf Event.pgStartBackup < tr.indexOf Event.dirScan
      ∧ tr.indexOf Event.pgStartBackup < tr.indexOf Event.addFiles
      ∧ tr.indexOf Event.backupFilesCopy < tr.indexOf Event.pgStopBackup
      ∧ tr.indexOf Event.pgStopBackup < tr.indexOf Event.writeFileList
      ∧ (env.backup_mode = BackupMode.DIFF_PAGE →
          tr.indexOf Event.pgStartBackup < tr.indexOf Event.walSwitch
          ∧ tr.indexOf Event.walSwitch < tr.indexOf Event.extractPageMap))
    ∧ (∀ env tr m, env.is_standby = false →
        ¬ (env.backup_mode = BackupMode.DIFF_PAGE ∧
            catalog_get_last_data_backup env.backup_list env.tli = none) →
        env.backup_label_exists = false →
        do_backup_database env = .fatal tr m →
        Event.pgStopBackup ∈ tr ∧ Event.backupFilesCopy ∉ tr) := by
  constructor
  · intro env tr l hok
    rcases do_backup_database_ok_shape env tr l hok with ⟨-, htr, -⟩ | ⟨hnd, htr, -⟩
    · subst htr
      exact ⟨by decide, by decide, by decide, by decide,
        fun _ => ⟨by decide, by decide⟩⟩
    · subst htr
      exact ⟨by decide, by decide, by decide, by decide,
        fun hdd => absurd hdd hnd⟩
  · intro env tr m hs hnp hl hfat
    cases hw : wait_for_archive env.stop_ready env.interrupted with
    | error m2 =>
      simp [do_backup_database, hs, hnp, hl, hw] at hfat
      obtain ⟨htr, -⟩ := hfat
      subst htr
      exact ⟨by decide, by decide⟩
    | ok n =>
      simp [do_backup_database, hs, hnp, hl, hw] at hfat
      obtain ⟨htr, -⟩ := hfat
      subst htr
      exact ⟨by decide, by decide⟩

/-- Witness for C4 at a concrete successful FULL run. -/
theorem C4_ordering_witness :
    fullTrace.indexOf Event.pgStartBackup < fullTrace.indexOf Event.dirScan
    ∧ fullTrace.indexOf Event.pgStartBackup < fullTrace.indexOf Event.addFiles
    ∧ fullTrace.indexOf Event.backupFilesCopy < fullTrace.indexOf Event.pgStopBackup
    ∧ fullTrace.indexOf Event.pgStopBackup < fullTrace.indexOf Event.writeFileList
    ∧ (envFullOk.backup_mode = BackupMode.DIFF_PAGE →
        fullTrace.indexOf Event.pgStartBackup < fullTrace.indexOf Event.walSwitch
        ∧ fullTrace.indexOf Event.walSwitch < fullTrace.indexOf Event.extractPageMap) :=
  C4_ordering.1 envFullOk fullTrace none rfl

/-- C5 counterexample: a successful DIFF_PAGE run scans and tags the
data directory (addFiles) before the WAL switch and before the WAL
reader (extractPageMap), so the claim that the switch, archive wait and
WAL reader all run before the directory scan is false on the code. -/
theorem C5_scan_before_reader_counterexample :
    do_backup_database envDiffOk = .ok diffTrace (some 42)
    ∧ envDiffOk.backup_mode = BackupMode.DIFF_PAGE
    ∧ ¬ (diffTrace.indexOf Event.walSwitch < diffTrace.indexOf Event.addFiles)
    ∧ ¬ (diffTrace.indexOf Event.extractPageMap < diffTrace.indexOf Event.addFiles) :=
  ⟨rfl, rfl, by decide, by decide⟩

/-- C5 (amended): in a successful DIFF_PAGE invocation the orchestrator
first scans the data directory and tags relation files (addFiles), then
forces the WAL switch and waits for archival, then runs the WAL reader
(extractPageMap, which consults the already-built file list), and only
then iterates the files for copying. -/
theorem C5_diff_ordering :
    ∀ env tr l, do_backup_database env = .ok tr l →
      env.backup_mode = BackupMode.DIFF_PAGE →
      tr.indexOf Event.addFiles < tr.indexOf Event.walSwitch
      ∧ tr.indexOf Event.walSwitch < tr.indexOf Event.extractPageMap
      ∧ tr.indexOf Event.extractPageMap < tr.indexOf Event.backupFilesCopy := by
  intro env tr l hok hd
  rcases do_backup_database_ok_shape env tr l hok with ⟨-, htr, -⟩ | ⟨hnd, -, -⟩
  · subst htr
    exact ⟨by decide, by decide, by decide⟩
  · exact absurd hd hnd

/-- Witness for C5 at a concrete successful DIFF_PAGE run. -/
theorem C5_diff_ordering_witness :
    diffTrace.indexOf Event.addFiles < diffTrace.indexOf Event.walSwitch
    ∧ diffTrace.indexOf Event.walSwitch < diffTrace.indexOf Event.extractPageMap
    ∧ diffTrace.indexOf Event.extractPageMap < diffTrace.indexOf Event.backupFilesCopy :=
  C5_diff_ordering envDiffOk diffTrace (some 42) rfl rfl

/-- C6: whenever the wall-clock seconds value observed by backup_files
is strictly earlier than the mtime of the file about to be processed,
the loop raises the fatal clock-rewind error (and hence records no copy
for that file); in particular for the first file of the sorted list with
the initial gettimeofday reading. -/
theorem C6_clock_rewind_fatal :
    (∀ fs clock intr prev lsn fuel tv k (f : pgFile) rest acc,
      tv < f.mtime →
      backup_files_loop fs clock intr prev lsn fuel tv k (f :: rest) acc =
        .fatal rewindMsg)
    ∧ (∀ fs clock intr prev lsn fuel files (f : pgFile) rest,
      sortFiles files = f :: rest → clock 0 < f.mtime →
      backup_files fs clock intr prev lsn fuel files = .fatal rewindMsg) := by
  have base : ∀ fs clock intr prev lsn fuel tv k (f : pgFile) rest acc,
      tv < f.mtime →
      backup_files_loop fs clock intr prev lsn fuel tv k (f :: rest) acc =
        .fatal rewindMsg := by
    intro fs clock intr prev lsn fuel tv k f rest acc hlt
    simp [backup_files_loop, file_step, if_pos hlt]
  refine ⟨base, ?_⟩
  intro fs clock intr prev lsn fuel files f rest hsort hlt
  unfold backup_files
  rw [hsort]
  exact base fs clock intr prev lsn fuel (clock 0) 1 f rest [] hlt

/-- Witness for C6 at a concrete input: initial reading 0, file mtime 5. -/
theorem C6_clock_rewind_fatal_witness :
    backup_files_loop fsAllReg (fun _ => 0) false none none 1 0 1 [fileReg5] [] =
      .fatal rewindMsg :=
  C6_clock_rewind_fatal.1 fsAllReg (fun _ => 0) false none none 1 0 1 fileReg5 [] []
    (by decide)

/-- C7: the same-second wait returns only a clock reading strictly past
the file mtime, and consequently every copy recorded by backup_files
(successful or failed) began at an observed wall-clock second strictly
greater than the file mtime. -/
theorem C7_same_second_wait :
    (∀ clock m k fuel k2 tv2, wait_next_second clock m k fuel = some (k2, tv2) →
      m < tv2 ∧ tv2 = clock k2)
    ∧ (∀ fs clock intr prev lsn fuel files acts,
        backup_files fs clock intr prev lsn fuel files = .done acts →
        ∀ o ∈ acts, copyAboveMtime o = true) := by
  constructor
  · intro clock m k fuel k2 tv2 h
    exact wait_next_second_gt clock m fuel k k2 tv2 h
  · intro fs clock intr prev lsn fuel files acts h o ho
    unfold backup_files at h
    exact backup_files_loop_copyAbove fs clock intr prev lsn fuel (sortFiles files)
      (clock 0) 1 [] acts h (fun o2 ho2 => absurd ho2 (by simp)) o ho

/-- Witness for C7 at a concrete input: a file with mtime 5 processed at
observed second 5 is copied only after the clock reads 6. -/
theorem C7_same_second_wait_witness :
    copyAboveMtime ⟨"base/1/16384", 5, FileAction.copied 6⟩ = true := by
  have h := C7_same_second_wait.2 fsAllReg (fun k => if k = 0 then 5 else 6) false
      none none 3 [fileReg5] [⟨"base/1/16384", 5, FileAction.copied 6⟩] (by rfl)
  exact h ⟨"base/1/16384", 5, FileAction.copied 6⟩ (by simp)

/-- C8: wait_for_archive polls for the disappearance of the `.ready`
marker; it fails fatally when the interrupt flag is observed during the
wait, fails fatally with the archive-timeout message when the marker is
still present at every poll through the fixed 10-second timeout, and
returns normally (with the poll count) when the marker is absent or
disappears in time. -/
theorem C8_wait_for_archive (ready : Nat → Bool) :
    (ready 0 = true → wait_for_archive ready true = .error interruptedWaitMsg)
    ∧ ((∀ t, t ≤ TIMEOUT_ARCHIVE → ready t = true) →
        wait_for_archive ready false = .error timeoutMsg)
    ∧ (∀ tstar, tstar ≤ TIMEOUT_ARCHIVE → ready tstar = false →
        (∀ s, s < tstar → ready s = true) →
        wait_for_archive ready false = .ok tstar) := by
  refine ⟨?_, ?_, ?_⟩
  · intro h0
    simp [wait_for_archive, wait_for_archive_loop, h0]
  · intro hall
    exact wait_loop_timeout ready hall (TIMEOUT_ARCHIVE + 1) 0 (Nat.zero_le _)
  · intro tstar h1 h2 h3
    exact wait_loop_finds ready (TIMEOUT_ARCHIVE + 1) 0 tstar (Nat.zero_le _) h1
      (by simp only [TIMEOUT_ARCHIVE] at h1 ⊢; omega) h2
      (fun s _ hs => h3 s hs)

/-- Witness for C8: with the marker never disappearing, the wait fails
with the archive-timeout message. -/
theorem C8_wait_for_archive_witness :
    wait_for_archive (fun _ => true) false = .error timeoutMsg :=
  (C8_wait_for_archive (fun _ => true)).2.1 (fun _ _ => rfl)

/-- C9 counterexample: when stat fails with an errno other than ENOENT,
fileExists does not return true unconditionally: the C code falls
through to S_ISREG on the stat buffer that the failed stat left
unspecified, and when that residual buffer does not look like a regular
file the function returns false. -/
theorem C9_fileExists_counterexample :
    fileExists (Except.error Errno.EACCES) FileKind.dir = false := rfl

/-- C9 (amended): fileExists returns false when stat fails with ENOENT;
when stat fails with any other errno the early false-return is skipped
and the result is the S_ISREG test applied to the residual (unspecified)
stat buffer, so the path is treated as existing exactly when that buffer
happens to hold a regular-file mode; when stat succeeds the result is
true exactly for a regular file. -/
theorem C9_fileExists :
    (∀ residual, fileExists (Except.error Errno.ENOENT) residual = false)
    ∧ (∀ e residual, e ≠ Errno.ENOENT →
        fileExists (Except.error e) residual = (residual == FileKind.reg))
    ∧ (∀ kind residual, fileExists (Except.ok kind) residual = (kind == FileKind.reg)) := by
  refine ⟨fun residual => rfl, ?_, fun kind residual => rfl⟩
  intro e residual he
  cases e with
  | ENOENT => exact absurd rfl he
  | EACCES => rfl
  | OTHER => rfl

/-- Witness for C9 at a concrete input. -/
theorem C9_fileExists_witness :
    fileExists (Except.error Errno.OTHER) FileKind.reg = (FileKind.reg == FileKind.reg) :=
  C9_fileExists.2.1 Errno.OTHER FileKind.reg (by decide)

/-- C10: in DIFF_PAGE mode (a previous file list is supplied), a regular
file whose path the previous list contains with an identical recorded
mtime is not copied at all: backup_files records the skip (whose
write_size assignment is the BYTES_INVALID sentinel) and moves on,
regardless of the content of the file page map. -/
theorem C10_unmodified_skip :
    ∀ fs clock intr (prev : List pgFile) lsn fuel files acts (f p : pgFile),
      backup_files fs clock intr (some prev) lsn fuel files = .done acts →
      f ∈ files →
      fs.statOf f.path = .ok FileKind.reg →
      prev.find? (fun q => q.path == f.path) = some p →
      p.mtime = f.mtime →
      (⟨f.path, f.mtime, FileAction.skippedUnmodified⟩ : FileOutcome) ∈ acts
      ∧ actionWriteSize FileAction.skippedUnmodified = some BYTES_INVALID := by
  intro fs clock intr prev lsn fuel files acts f p h hmem hstat hfind hmtime
  refine ⟨?_, rfl⟩
  unfold backup_files at h
  refine backup_files_loop_prevskip fs clock intr (some prev) lsn fuel (sortFiles files)
    (clock 0) 1 [] acts h f ((mem_sortFiles f files).mpr hmem) hstat ?_
  simp [prevSkip, hfind, hmtime]

/-- Witness for C10 at a concrete input: the file present in the
previous list with the same mtime is recorded as skipped. -/
theorem C10_unmodified_skip_witness :
    (⟨"base/1/16384", 5, FileAction.skippedUnmodified⟩ : FileOutcome) ∈
      [(⟨"base/1/16384", 5, FileAction.skippedUnmodified⟩ : FileOutcome)]
    ∧ actionWriteSize FileAction.skippedUnmodified = some BYTES_INVALID :=
  C10_unmodified_skip fsAllReg (fun _ => 7) false [fileReg5] none 3 [fileReg5]
    [⟨"base/1/16384", 5, FileAction.skippedUnmodified⟩] fileReg5 fileReg5
    (by rfl) (by simp) (by rfl) (by rfl) rfl

end PgArman
